import Mathlib

/-!
# Verification of the termit pseudo-terminal record/replay tools

Shallow embedding of the core logic of `titplay.py` (replay) and
`titrec.py` (record).  Text is modelled as `List Char` (the scripts only
ever decode with `errors='ignore'`, so bytes are identified with the
characters they decode to), and the blocking `select` loops as functions
over explicit event traces: each trace entry carries the instant at which
that loop iteration observes its event.  Wall-clock instants and the
silence threshold are modelled as integers `ℤ`: the source measures
real-valued seconds, but every property below is order-theoretic in time,
so any ordered time domain gives the same logic.  Durations that are data
rather than clock readings (the argument of a sleep directive, the fixed
half-second pauses) are kept as rationals `ℚ`.
-/

namespace Termit

/-- Python `str.strip()` whitespace (space, tab, newline, carriage return,
vertical tab, form feed), used by `line.strip()` in both scripts. -/
def pyIsSpace (c : Char) : Bool :=
  c = ' ' || c = '\t' || c = '\n' || c = '\r' || c = Char.ofNat 11 || c = Char.ofNat 12

/-- Python `str.strip()`: remove leading and trailing whitespace. -/
def pyStrip (l : List Char) : List Char :=
  ((l.dropWhile pyIsSpace).reverse.dropWhile pyIsSpace).reverse

/-- The ESC byte, `\x1B`. -/
def escChar : Char := Char.ofNat 27

/-- Second byte of a two-byte escape: the first alternative of the ANSI regex
in `_check_prompt` (titplay.py line 79) and in the recorder's identical
`re.sub` (titrec.py line 164), the character class from `@` to `Z` joined
with backslash to underscore, i.e. `0x40` to `0x5A` or `0x5C` to `0x5F`. -/
def isTwoByteEsc (c : Char) : Bool :=
  (64 ≤ c.toNat && c.toNat ≤ 90) || (92 ≤ c.toNat && c.toNat ≤ 95)

/-- CSI parameter byte, the class from `0` to `?`: `0x30` to `0x3F`. -/
def isCsiParam (c : Char) : Bool := 48 ≤ c.toNat && c.toNat ≤ 63

/-- CSI intermediate byte, the class from space to `/`: `0x20` to `0x2F`. -/
def isCsiInter (c : Char) : Bool := 32 ≤ c.toNat && c.toNat ≤ 47

/-- CSI final byte, the class from `@` to `~`: `0x40` to `0x7E`. -/
def isCsiFinal (c : Char) : Bool := 64 ≤ c.toNat && c.toNat ≤ 126

/-- Scanner mode while stripping ANSI escapes.  The regex being erased is
ESC followed by either one two-byte-escape character or by `[`, then zero or
more parameter bytes, zero or more intermediate bytes and one final byte.
`afterEsc` means an ESC has just been read; `csiP` / `csiI` mean we are
inside a CSI sequence reading parameter / intermediate bytes, with `seen`
holding the bytes consumed after `ESC [` in reverse (to be re-emitted when
the candidate sequence turns out not to match). -/
inductive EscMode where
  | normal : EscMode
  | afterEsc : EscMode
  | csiP : List Char → EscMode
  | csiI : List Char → EscMode

/-- One left-to-right scan deleting every leftmost match of the ANSI-escape
regex, exactly as `re.sub(pattern, '', text)` does.  The three CSI byte
classes are pairwise disjoint and contain neither ESC nor `[`, so the greedy
regex is deterministic, a failed candidate match can only be resumed at the
character that caused the failure, and this scanner erases precisely the
substrings `re.sub` erases. -/
def stripGo : EscMode → List Char → List Char
  | .normal, [] => []
  | .normal, c :: rest =>
    if c = escChar then stripGo .afterEsc rest else c :: stripGo .normal rest
  | .afterEsc, [] => [escChar]
  | .afterEsc, d :: rest =>
    if isTwoByteEsc d then stripGo .normal rest
    else if d = '[' then stripGo (.csiP []) rest
    else escChar :: (if d = escChar then stripGo .afterEsc rest else d :: stripGo .normal rest)
  | .csiP seen, [] => escChar :: '[' :: seen.reverse
  | .csiP seen, c :: rest =>
    if isCsiParam c then stripGo (.csiP (c :: seen)) rest
    else if isCsiInter c then stripGo (.csiI (c :: seen)) rest
    else if isCsiFinal c then stripGo .normal rest
    else (escChar :: '[' :: seen.reverse) ++
      (if c = escChar then stripGo .afterEsc rest else c :: stripGo .normal rest)
  | .csiI seen, [] => escChar :: '[' :: seen.reverse
  | .csiI seen, c :: rest =>
    if isCsiInter c then stripGo (.csiI (c :: seen)) rest
    else if isCsiFinal c then stripGo .normal rest
    else (escChar :: '[' :: seen.reverse) ++
      (if c = escChar then stripGo .afterEsc rest else c :: stripGo .normal rest)

/-- Strip ANSI escape sequences: `re.sub` of the pattern ESC, then either a
two-byte-escape character or `[`, parameters, intermediates and a final
byte, replaced by the empty string (titplay.py line 79 to 80, titrec.py
line 164). -/
def stripEscapes (l : List Char) : List Char := stripGo .normal l

example : stripEscapes ([escChar, '[', '1', ';', '3', '2', 'm', '$', ' '] : List Char) =
    ['$', ' '] := by decide
example : stripEscapes ([escChar, '[', 'K'] : List Char) = [] := by decide
example : stripEscapes ([escChar, ']'] : List Char) = [] := by decide
example : stripEscapes ([escChar, '!', 'x'] : List Char) = [escChar, '!', 'x'] := by decide
example : stripEscapes ([escChar, '[', '1'] : List Char) = [escChar, '[', '1'] := by decide
example : stripEscapes ([escChar, '[', '0', escChar, '[', 'm'] : List Char) =
    [escChar, '[', '0'] := by decide

/-- Regular expressions over characters, covering the constructs used by the
prompt patterns of the two scripts: the empty string, a literal character
(also the result of a regex escape such as the escaped dollar or dot), a
character class given by closed ranges (negated when the flag is true), and
concatenation.  The end-of-line anchor that `_check_prompt` appends to every
pattern is handled by the search function, not by a constructor. -/
inductive Regex where
  | eps : Regex
  | char : Char → Regex
  | cls : Bool → List (Char × Char) → Regex
  | cat : Regex → Regex → Regex
deriving DecidableEq

/-- Is `c` inside one of the closed ranges? -/
def inRanges (c : Char) : List (Char × Char) → Bool
  | [] => false
  | (a, b) :: rs => (a.toNat ≤ c.toNat && c.toNat ≤ b.toNat) || inRanges c rs

/-- Does the regex match exactly the whole string? -/
def rmatch : Regex → List Char → Bool
  | .eps, s => s.isEmpty
  | .char c, s => decide (s = [c])
  | .cls neg ranges, s =>
    match s with
    | [d] => inRanges d ranges != neg
    | _ => false
  | .cat r1 r2, s =>
    (List.range (s.length + 1)).any fun i => rmatch r1 (s.take i) && rmatch r2 (s.drop i)

/-- A position `j` in `s` where the `re.MULTILINE` anchor matches: the end of
the string, or immediately before a newline. -/
def isEolPos (s : List Char) (j : ℕ) : Bool :=
  j == s.length || s.get? j == some '\n'

/-- Python `re.search` of the pattern with the end-of-line anchor appended,
under `re.MULTILINE`: some substring of `s` from `i` to `j` matches the
pattern with `j` an end-of-line position. -/
def searchEol (r : Regex) (s : List Char) : Bool :=
  (List.range (s.length + 1)).any fun j =>
    isEolPos s j && (List.range (j + 1)).any fun i => rmatch r ((s.take j).drop i)

/-- The replayer's `current_prompt` as `_check_prompt` receives it: either a
single pattern or a list of alternative patterns (the Python attribute holds
either a string or a list of strings, distinguished by `isinstance`). -/
inductive PromptSpec where
  | single : Regex → PromptSpec
  | multi : List Regex → PromptSpec
deriving DecidableEq

/-- Embeds `PTYRunner._check_prompt` (titplay.py lines 76 to 91): strip ANSI
escape sequences from the text, then search for any of the patterns anchored
at end of line. -/
def check_prompt (prompts : PromptSpec) (text : List Char) : Bool :=
  let clean_text := stripEscapes text
  match prompts with
  | .multi ps => ps.any fun p => searchEol p clean_text
  | .single p => searchEol p clean_text

/-- Spec-side reading of the `matches` contract (spec section 4.2): the
pattern matches the cleaned text anchored at an end-of-line, i.e. some
substring ending at the end of the string or just before a newline is
matched in full. -/
def matchesAtEol (r : Regex) (s : List Char) : Prop :=
  ∃ i j, i ≤ j ∧ j ≤ s.length ∧ (j = s.length ∨ s.get? j = some '\n') ∧
    rmatch r ((s.take j).drop i) = true

/-- The alternatives of a prompt spec: a single pattern is its own only
alternative. -/
def specAlternatives : PromptSpec → List Regex
  | .single p => [p]
  | .multi ps => ps

/-- The pattern of a literal dollar and space, the replayer's default shell
prompt `current_prompt` (titplay.py line 18). -/
def shDollarPattern : Regex := .cat (.char '$') (.char ' ')

example : check_prompt (.single shDollarPattern) (['$', ' '] : List Char) = true := by decide
example : check_prompt (.single shDollarPattern) (['$', ' ', '\n'] : List Char) = true := by decide
example : check_prompt (.single shDollarPattern) (['$', 'x'] : List Char) = false := by decide
example : check_prompt (.single shDollarPattern)
    ([escChar, '[', 'm', '$', ' '] : List Char) = true := by decide
example : check_prompt (.single shDollarPattern)
    (['a', '\n', '$', ' ', '\n'] : List Char) = true := by decide

theorem searchEol_iff (r : Regex) (s : List Char) :
    searchEol r s = true ↔ matchesAtEol r s := by
  simp only [searchEol, matchesAtEol, List.any_eq_true, List.mem_range, isEolPos,
    Bool.and_eq_true, Bool.or_eq_true, beq_iff_eq]
  constructor
  · rintro ⟨j, hj, heol, i, hi, hm⟩
    exact ⟨i, j, by omega, by omega, heol, hm⟩
  · rintro ⟨i, j, hij, hjs, heol, hm⟩
    exact ⟨j, by omega, heol, i, by omega, hm⟩

/-- C3: for every prompt spec and every text, `_check_prompt` returns true if
and only if, after stripping ANSI/VT escape sequences from the text, at
least one alternative pattern of the spec matches anchored at an end-of-line
(multiline matching, so a prompt on the final line is detected even when
earlier lines contain unrelated text). -/
theorem check_prompt_iff_alternative_matches_at_eol
    (prompts : PromptSpec) (text : List Char) :
    check_prompt prompts text = true ↔
      ∃ p ∈ specAlternatives prompts, matchesAtEol p (stripEscapes text) := by
  cases prompts with
  | single p => simp [check_prompt, specAlternatives, searchEol_iff]
  | multi ps => simp [check_prompt, specAlternatives, List.any_eq_true, searchEol_iff]

/-- State of `PTYRunner.wait_for_prompt` (titplay.py lines 36 to 39): the
rolling output buffer, the instant of the last received data, and the
prompt-found flag. -/
structure WaitState where
  buffer : List Char
  last_output_time : ℤ
  prompt_found : Bool
deriving DecidableEq

/-- Buffer truncation of titplay.py lines 61 to 62: when the buffer exceeds
1000 bytes keep only the last 500. -/
def truncBuffer (b : List Char) : List Char :=
  if 1000 < b.length then b.drop (b.length - 500) else b

/-- One iteration of the wait loop body (titplay.py lines 42 to 62) observed
at instant `t`.  `data = some d` models `select` reporting the master
readable and `os.read` returning `d` (an empty `d` is an end-of-file read:
the source runs the very same code on it); `none` models a `select` timeout.
On data the silence clock is reset, the prompt flag is recomputed from
scratch against the grown buffer, and the buffer is truncated. -/
def wait_step (prompts : PromptSpec) (t : ℤ) (data : Option (List Char))
    (s : WaitState) : WaitState :=
  match data with
  | some d =>
    { buffer := truncBuffer (s.buffer ++ d)
      last_output_time := t
      prompt_found := check_prompt prompts (s.buffer ++ d) }
  | none => s

/-- Embeds the `while time.time() < end_time` loop of
`PTYRunner.wait_for_prompt` (titplay.py lines 41 to 74) over an explicit
event trace.  Returns `some (t, s)` when the prompt is confirmed at instant
`t` in state `s` (the loop then returns `True`), and `none` when the loop
times out or the trace is exhausted (the loop returns `False` after
reporting the timeout). -/
def wait_for_prompt (prompts : PromptSpec) (th endTime : ℤ) :
    WaitState → List (ℤ × Option (List Char)) → Option (ℤ × WaitState)
  | _, [] => none
  | s, (t, data) :: rest =>
    if t < endTime then
      if (wait_step prompts t data s).prompt_found &&
          decide (th ≤ t - (wait_step prompts t data s).last_output_time) then
        some (t, wait_step prompts t data s)
      else wait_for_prompt prompts th endTime (wait_step prompts t data s) rest
    else none

/-- Default of the `timeout` parameter of `wait_for_prompt`
(titplay.py line 27); `end_time` is the entry instant plus this value. -/
def wait_for_prompt_default_timeout : ℤ := 30

/-- Invariant: whenever the prompt-found flag is set, some buffer contents
matched the prompt spec and the current buffer is its truncation. -/
def promptMatchedBuffer (prompts : PromptSpec) (s : WaitState) : Prop :=
  s.prompt_found = true →
    ∃ b, check_prompt prompts b = true ∧ s.buffer = truncBuffer b

theorem wait_step_preserves_promptMatchedBuffer
    (prompts : PromptSpec) (t : ℤ) (data : Option (List Char)) (s : WaitState)
    (h : promptMatchedBuffer prompts s) :
    promptMatchedBuffer prompts (wait_step prompts t data s) := by
  cases data with
  | none => exact h
  | some d =>
    intro hf
    exact ⟨s.buffer ++ d, by simpa [wait_step] using hf, rfl⟩

theorem wait_for_prompt_some {prompts : PromptSpec} {th endTime : ℤ} :
    ∀ {trace : List (ℤ × Option (List Char))} {s0 : WaitState} {t : ℤ} {s : WaitState},
      promptMatchedBuffer prompts s0 →
      wait_for_prompt prompts th endTime s0 trace = some (t, s) →
      s.prompt_found = true ∧ th ≤ t - s.last_output_time ∧ promptMatchedBuffer prompts s := by
  intro trace
  induction trace with
  | nil => intro s0 t s _ h; exact absurd h (by simp [wait_for_prompt])
  | cons ev rest ih =>
    intro s0 t s hinv h
    obtain ⟨t1, data⟩ := ev
    rw [wait_for_prompt] at h
    by_cases ht : t1 < endTime
    · rw [if_pos ht] at h
      have hinv2 := wait_step_preserves_promptMatchedBuffer prompts t1 data s0 hinv
      by_cases hc : ((wait_step prompts t1 data s0).prompt_found &&
          decide (th ≤ t1 - (wait_step prompts t1 data s0).last_output_time)) = true
      · rw [if_pos hc] at h
        obtain ⟨hf, hs⟩ := Bool.and_eq_true_iff.mp hc
        obtain ⟨ht', hs'⟩ := Prod.mk.injEq .. ▸ Option.some.inj h
        subst ht'; subst hs'
        exact ⟨hf, of_decide_eq_true hs, hinv2⟩
      · rw [if_neg hc] at h
        exact ih hinv2 h
    · rw [if_neg ht] at h
      exact absurd h (by simp)

/-- C2: the replay prompt wait returns success only when a prompt pattern
has matched the (rolling) output buffer and no byte has arrived for at least
the silence threshold since; moreover every received byte re-derives the
prompt flag from scratch against the new buffer and resets the silence
clock, so a pending confirmation is invalidated and re-armed by any new
output. -/
theorem wait_confirms_only_matched_and_silent
    (prompts : PromptSpec) (th endTime : ℤ) (s0 : WaitState)
    (trace : List (ℤ × Option (List Char))) (t : ℤ) (s : WaitState)
    (h0 : s0.prompt_found = false)
    (h : wait_for_prompt prompts th endTime s0 trace = some (t, s)) :
    (∃ b, check_prompt prompts b = true ∧ s.buffer = truncBuffer b) ∧
    th ≤ t - s.last_output_time ∧
    (∀ (s2 : WaitState) (t2 : ℤ) (d : List Char),
      (wait_step prompts t2 (some d) s2).prompt_found = check_prompt prompts (s2.buffer ++ d) ∧
      (wait_step prompts t2 (some d) s2).last_output_time = t2) := by
  have hinv0 : promptMatchedBuffer prompts s0 := fun hf => absurd hf (by simp [h0])
  obtain ⟨hf, hsil, hinv⟩ := wait_for_prompt_some hinv0 h
  exact ⟨hinv hf, hsil, fun s2 t2 d => ⟨rfl, rfl⟩⟩

/-- Prompt spec and event trace for the witness below: the child prints the
dollar prompt at instant 1 and stays silent through the timeout check at
instant 2. -/
def c2Spec : PromptSpec := .single shDollarPattern

def c2Trace : List (ℤ × Option (List Char)) := [(1, some ['$', ' ']), (2, none)]

theorem wait_confirms_witness :
    (∃ b, check_prompt c2Spec b = true ∧
        (WaitState.mk ['$', ' '] 1 true).buffer = truncBuffer b) ∧
    (1 : ℤ) ≤ 2 - (WaitState.mk ['$', ' '] 1 true).last_output_time :=
  let h := wait_confirms_only_matched_and_silent c2Spec 1 30 ⟨[], 0, false⟩ c2Trace 2
    ⟨['$', ' '], 1, true⟩ rfl (by decide)
  ⟨h.1, h.2.1⟩

/-- Convenience: the character list of a string literal. -/
def chars (s : String) : List Char := s.data

/-- The single-quote character (written by code point to keep source plain). -/
def squoteChar : Char := Char.ofNat 39

/-- Script loading of `process_command_file` (titplay.py line 116): keep
exactly the lines whose stripped text is non-empty and whose raw text does
not start with the hash character, each replaced by its stripped text. -/
def loadCommands (ls : List (List Char)) : List (List Char) :=
  (ls.filter fun l => !(pyStrip l).isEmpty && !((chars "#").isPrefixOf l)).map pyStrip

/-- Built-in shell prompt pattern strings (titplay.py line 20). -/
def prompt_patterns_sh : List (List Char) := [chars "\\$ ", chars "# ", chars "> "]

/-- Built-in MySQL prompt pattern strings (titplay.py line 21); the third is
double quote, backslash, single quote, greater-than, space. -/
def prompt_patterns_mysql : List (List Char) :=
  [chars "mysql> ", chars "-> ", chars "\"\\" ++ [squoteChar] ++ chars "> "]

/-- Built-in PostgreSQL prompt pattern strings (titplay.py line 22). -/
def prompt_patterns_psql : List (List Char) := [chars "[#=>] ", chars "-\\? "]

/-- Built-in Python prompt pattern strings (titplay.py line 23). -/
def prompt_patterns_python : List (List Char) := [chars ">>> ", chars "\\.\\.\\. "]

/-- The replayer's mutable `current_prompt` attribute, which holds either a
single pattern string (the default, or one set by a `prompt` directive) or a
list of pattern strings (set by a named built-in directive). -/
inductive CurrentPrompt where
  | pattern : List Char → CurrentPrompt
  | patternList : List (List Char) → CurrentPrompt
deriving DecidableEq

/-- Status lines the replayer prints for the operator, one constructor per
`print` call of the command loop and the meta-command handler. -/
inductive Report where
  | settingPromptPattern : List Char → Report
  | promptRequiresArgument : Report
  | settingShellPatterns : Report
  | settingMysqlPatterns : Report
  | settingPythonPatterns : Report
  | settingPsqlPatterns : Report
  | sendingEofReport : Report
  | sleepingFor : ℚ → Report
  | sleepRequiresNumericArgument : Report
  | enteringInteractiveMode : Report
  | note : List Char → Report
  | unknownMetaCommand : List Char → Report
  | showCommand : List Char → Report
  | commandFailedToComplete : Report
  | failedInitialPrompt : Report
deriving DecidableEq

/-- Observable actions of the replay driver, in program order: bytes written
to the child's input, status reports to the operator, sleeps of the driver,
and entry into the interactive escape hatch (whose keyboard-driven writes
are operator input, not determined by the script). -/
inductive REvent where
  | sent : List Char → REvent
  | report : Report → REvent
  | slept : ℚ → REvent
  | interactiveMode : REvent
deriving DecidableEq

/-- Python `s.split(sep, 1)` on a single character: the part before the
first separator, and — when a separator exists — the rest. -/
def splitFirstChar (sep : Char) : List Char → List Char × Option (List Char)
  | [] => ([], none)
  | c :: rest =>
    if c = sep then ([], some rest)
    else
      let p := splitFirstChar sep rest
      (c :: p.1, p.2)

/-- Digit run to a natural number. -/
def digitsToNat (l : List Char) : ℕ :=
  l.foldl (fun acc c => acc * 10 + (c.toNat - 48)) 0

/-- Are all characters decimal digits? -/
def allDigits (l : List Char) : Bool := l.all fun c => 48 ≤ c.toNat && c.toNat ≤ 57

/-- Models the Python builtin `float` (not repository code) on the grammar
the scripts rely on: optional surrounding whitespace, an optional sign, and
decimal digits with an optional fractional part; `none` models the
`ValueError` raised on malformed input.  (Python also accepts exponents,
infinities and NaN; the scripts' sleep arguments never use those forms and
they are left out of the model.) -/
def pyFloat (l : List Char) : Option ℚ :=
  let s := pyStrip l
  let signed : ℚ × List Char :=
    match s with
    | c :: rest =>
      if c = '-' then (-1, rest) else if c = '+' then (1, rest) else (1, c :: rest)
    | [] => (1, [])
  let ip := (splitFirstChar '.' signed.2).1
  let fp := (splitFirstChar '.' signed.2).2.getD []
  if (!ip.isEmpty || !fp.isEmpty) && allDigits ip && allDigits fp then
    some (signed.1 * ((digitsToNat ip : ℚ) + (digitsToNat fp : ℚ) / ((10 : ℚ) ^ fp.length)))
  else none

/-- Embeds `PTYRunner._process_meta_command` (titplay.py lines 202 to 260):
split the directive on the first space, lowercase the name, and dispatch.
Returns the new `current_prompt` and the observable actions in order. -/
def process_meta_command (current : CurrentPrompt) (meta_cmd : List Char) :
    CurrentPrompt × List REvent :=
  let parts := splitFirstChar ' ' meta_cmd
  let cmd := parts.1.map Char.toLower
  let arg := parts.2.getD []
  if cmd = chars "prompt" then
    if !arg.isEmpty then (.pattern arg, [.report (.settingPromptPattern arg)])
    else (current, [.report .promptRequiresArgument])
  else if cmd = chars "sh" then
    (.patternList prompt_patterns_sh, [.report .settingShellPatterns])
  else if cmd = chars "mysql" then
    (.patternList prompt_patterns_mysql, [.report .settingMysqlPatterns])
  else if cmd = chars "python" then
    (.patternList prompt_patterns_python, [.report .settingPythonPatterns])
  else if cmd = chars "psql" then
    (.patternList prompt_patterns_psql, [.report .settingPsqlPatterns])
  else if cmd = chars "eof" then
    (current, [.report .sendingEofReport, .sent [Char.ofNat 4], .slept (1/2)])
  else if cmd = chars "sleep" then
    match pyFloat arg with
    | some q => (current, [.report (.sleepingFor q), .slept q])
    | none => (current, [.report .sleepRequiresNumericArgument])
  else if cmd = chars "interact" then
    (current, [.report .enteringInteractiveMode, .interactiveMode])
  else if cmd = chars "comment" then
    (current, [.report (.note arg)])
  else
    (current, [.report (.unknownMetaCommand cmd)])

/-- Embeds the command loop of `process_command_file` (titplay.py lines 157
to 170).  `o i` is the outcome of the i-th `wait_for_prompt` call of the
session (the initial wait is number 0, the wait after the i-th sent command
is number i); `k` is the number the next wait will get.  A meta-directive
line is dispatched to the handler; any other line is shown, sent with a
carriage return appended, and waited on — on wait failure the loop reports
the failure and breaks, on success it pauses half a second and goes on. -/
def run_commands (o : ℕ → Bool) :
    CurrentPrompt → ℕ → List (List Char) → CurrentPrompt × List REvent
  | current, _, [] => (current, [])
  | current, k, line :: rest =>
    if (chars "#>").isPrefixOf line then
      let p := process_meta_command current (pyStrip (line.drop 2))
      let q := run_commands o p.1 k rest
      (q.1, p.2 ++ q.2)
    else
      if o k then
        let q := run_commands o current (k + 1) rest
        (q.1, .report (.showCommand line) :: .sent (line ++ ['\r']) :: .slept (1/2) :: q.2)
      else
        (current,
         [.report (.showCommand line), .sent (line ++ ['\r']),
          .report .commandFailedToComplete])

/-- Embeds the parent branch of `PTYRunner.process_command_file` (titplay.py
lines 110 to 170): load the script, wait for the initial prompt (outcome
`o 0`; on failure report and run nothing), then run the command loop.  The
initial `current_prompt` is the literal backslash-dollar-space pattern
string set in `__init__`.  The post-script drain only reads child output
and is modelled separately by `drain_loop`. -/
def process_command_file (o : ℕ → Bool) (fileLines : List (List Char)) : List REvent :=
  if o 0 then (run_commands o (.pattern (chars "\\$ ")) 1 (loadCommands fileLines)).2
  else [.report .failedInitialPrompt]

/-- The byte strings written to the child, in order, among the driver's
observable actions. -/
def sentBytes (evs : List REvent) : List (List Char) :=
  evs.filterMap fun e => match e with | .sent b => some b | _ => none

example : (pyFloat (chars "1.5")).isSome = true := by decide
example : (pyFloat (chars " 2 ")).isSome = true := by decide
example : pyFloat (chars "abc") = none := by decide
example : pyFloat (chars "1.2.3") = none := by decide
example : pyFloat (chars "") = none := by decide

/-- C1 (evaluation of the loader at the failing input): the script loader of
`process_command_file` drops every raw line starting with the hash
character — including `#>` meta-directive lines at column 0, which
therefore never reach the meta-command dispatch of titplay.py line 160 —
while blank lines and plain `#` comment lines are dropped as the claim
says; only an indented directive escapes the filter. -/
theorem meta_directive_dropped_at_load :
    loadCommands [chars "#> sleep 1", chars "# a comment", chars "", chars "echo ok"] =
      [chars "echo ok"] ∧
    loadCommands [chars "  #> sleep 1"] = [chars "#> sleep 1"] := by decide

/-- C5: the wait loop gives up once the clock reaches `end_time` and its
`timeout` parameter defaults to 30 seconds; when the wait after a sent
command fails, the failed command's send is the last action, the failure is
reported, and the remaining script lines are never executed (hard stop, no
retry). -/
theorem wait_timeout_aborts_script :
    wait_for_prompt_default_timeout = 30 ∧
    (∀ (P : PromptSpec) (th endT : ℤ) (s : WaitState) (t : ℤ)
        (d : Option (List Char)) (tr : List (ℤ × Option (List Char))),
        endT ≤ t → wait_for_prompt P th endT s ((t, d) :: tr) = none) ∧
    (∀ (o : ℕ → Bool) (current : CurrentPrompt) (k : ℕ) (line : List Char)
        (rest : List (List Char)),
        o k = false → (chars "#>").isPrefixOf line = false →
        run_commands o current k (line :: rest) =
          (current,
           [.report (.showCommand line), .sent (line ++ ['\r']),
            .report .commandFailedToComplete])) := by
  refine ⟨rfl, ?_, ?_⟩
  · intro P th endT s t d tr h
    rw [wait_for_prompt, if_neg (not_lt.mpr h)]
  · intro o current k line rest ho hp
    rw [run_commands]
    simp [hp, ho]

/-- Closed instance of the C5 abort: the wait after the first sent command
fails, so `echo one` is sent, the failure is reported, and the remaining
line `echo two` is never executed; and a wait whose first observation is at
the end instant returns failure. -/
theorem wait_timeout_aborts_script_witness :
    run_commands (fun k => decide (k = 0)) (.pattern (chars "\\$ ")) 1
      [chars "echo one", chars "echo two"] =
      (.pattern (chars "\\$ "),
       [.report (.showCommand (chars "echo one")),
        .sent (chars "echo one" ++ ['\r']),
        .report .commandFailedToComplete]) ∧
    wait_for_prompt (.single shDollarPattern) 1 30 ⟨[], 0, false⟩ [(30, none)] = none :=
  ⟨wait_timeout_aborts_script.2.2 (fun k => decide (k = 0)) (.pattern (chars "\\$ ")) 1
      (chars "echo one") [chars "echo two"] (by decide) (by decide),
   wait_timeout_aborts_script.2.1 (.single shDollarPattern) 1 30 ⟨[], 0, false⟩ 30 none []
      (le_refl 30)⟩

/-- C6 (evaluation at the failing input): a column-0 `#> frobnicate` script
line is silently dropped by the loader, so no error is ever reported for
it; the dispatcher itself — reached only by indented directives — does
report an unknown name or a non-numeric `sleep` argument, leaves the prompt
state unchanged, and the loop continues with the remaining lines. -/
theorem unknown_directive_dropped_not_reported :
    loadCommands [chars "#> frobnicate", chars "echo ok"] = [chars "echo ok"] ∧
    (∀ current, process_meta_command current (chars "frobnicate") =
      (current, [.report (.unknownMetaCommand (chars "frobnicate"))])) ∧
    (∀ current, process_meta_command current (chars "sleep abc") =
      (current, [.report .sleepRequiresNumericArgument])) ∧
    (∀ (o : ℕ → Bool) (current : CurrentPrompt) (k : ℕ) (rest : List (List Char)),
      run_commands o current k (chars "#> frobnicate" :: rest) =
        ((run_commands o current k rest).1,
         .report (.unknownMetaCommand (chars "frobnicate")) ::
           (run_commands o current k rest).2)) :=
  ⟨by decide, fun _ => rfl, fun _ => rfl, fun _ _ _ _ => rfl⟩

/-- Local recording state of `SessionRecorder.record_session` (titrec.py
lines 78 to 83): instant of the last child output, everything received
since the last newline, the last prompt written to the transcript, the
command being typed, and the transcript lines so far. -/
structure RecState where
  last_output_time : ℤ
  current_prompt : List Char
  last_recorded_prompt : List Char
  command_so_far : List Char
  recorded_commands : List (List Char)
deriving DecidableEq

/-- The recorder's `prompt_map` (titrec.py lines 24 to 28): known prompt
literals and their shorthand directive names. -/
def prompt_map : List (List Char × List Char) :=
  [(chars "$ ", chars "sh"), (chars "mysql> ", chars "mysql"), (chars ">>> ", chars "python")]

/-- Python `decoded_data.split(chr(10))[-1]`: the suffix after the last
newline. -/
def afterLastNewline (d : List Char) : List Char :=
  (d.reverse.takeWhile (· != '\n')).reverse

/-- Child-output handling of the record loop (titrec.py lines 101 to 125),
for a non-empty chunk `d` observed at instant `t`: echo is a display-only
side effect, the silence clock is reset, and the current prompt line is
reset to the text after the last newline of the chunk, or extended when the
chunk has no newline. -/
def record_child_data (t : ℤ) (d : List Char) (s : RecState) : RecState :=
  { s with
    last_output_time := t
    current_prompt := if d.contains '\n' then afterLastNewline d
                      else s.current_prompt ++ d }

/-- Prompt-directive emission on a keystroke (titrec.py lines 163 to 171):
when the output has been silent for the threshold and the escape-stripped
current prompt line is non-empty and differs from the last recorded prompt,
append a directive — the shorthand from `prompt_map` when the stripped
prompt is a known literal, else the generic `prompt` form — and remember
the prompt; otherwise leave the state unchanged. -/
def maybe_record_prompt (th t : ℤ) (s : RecState) : RecState :=
  if th ≤ t - s.last_output_time ∧ stripEscapes s.current_prompt ≠ [] ∧
      stripEscapes s.current_prompt ≠ s.last_recorded_prompt then
    { s with
      recorded_commands := s.recorded_commands ++
        [chars "#> " ++ ((prompt_map.lookup (stripEscapes s.current_prompt)).getD
          (chars "prompt " ++ stripEscapes s.current_prompt))]
      last_recorded_prompt := stripEscapes s.current_prompt }
  else s

/-- Command accumulation on a keystroke (titrec.py lines 173 to 186): on
carriage return or newline append the non-empty command so far to the
transcript and clear it; on any other character extend the command. -/
def record_enter_or_key (c : Char) (s : RecState) : RecState :=
  if c = '\r' ∨ c = '\n' then
    if s.command_so_far ≠ [] then
      { s with
        recorded_commands := s.recorded_commands ++ [s.command_so_far]
        command_so_far := [] }
    else s
  else { s with command_so_far := s.command_so_far ++ [c] }

/-- Full keystroke handling (titrec.py lines 156 to 186): the forwarding of
the byte to the child is a pass-through side effect; the state change is
the possible prompt directive followed by command accumulation. -/
def record_user_key (th t : ℤ) (c : Char) (s : RecState) : RecState :=
  record_enter_or_key c (maybe_record_prompt th t s)

/-- Events the record loop can observe: a chunk from the child (empty means
the end-of-file read of titrec.py line 102), a keystroke, or end-of-file on
the keyboard (the empty `sys.stdin.read(1)` of line 140). -/
inductive RecEvent where
  | childData : List Char → RecEvent
  | userKey : Char → RecEvent
  | stdinClosed : RecEvent

/-- Why the record loop stopped. -/
inductive RecStop where
  | ctrlT : RecStop
  | stdinEof : RecStop
  | childEof : RecStop
deriving DecidableEq

/-- Embeds the `while recording` loop of `SessionRecorder.record_session`
(titrec.py lines 86 to 195) over an event trace: child end-of-file and
keyboard end-of-file stop recording at once with the state intact, the
Ctrl+T byte (code 20) stops before being forwarded or recorded, and every
other event updates the state.  Returns the final state and the stop
reason, `none` when the trace ran out with recording still on. -/
def record_session (th : ℤ) :
    RecState → List (ℤ × RecEvent) → RecState × Option RecStop
  | s, [] => (s, none)
  | s, (t, ev) :: rest =>
    match ev with
    | .childData [] => (s, some .childEof)
    | .childData d => record_session th (record_child_data t d s) rest
    | .userKey c =>
      if c = Char.ofNat 20 then (s, some .ctrlT)
      else record_session th (record_user_key th t c s) rest
    | .stdinClosed => (s, some .stdinEof)

/-- Embeds `SessionRecorder.finalize_recording` (titrec.py lines 214 to
225): the lines of the written script — three header comments followed by
the recorded lines — or nothing at all when no commands were recorded. -/
def finalize_recording (recorded : List (List Char)) : List (List Char) :=
  if recorded ≠ [] then
    [chars "# Automatically recorded session",
     chars "# Commands will be replayed according to prompts",
     chars "# See https://github.com/CapnKernel/termit for details"] ++ recorded
  else []

/-- Spec-side wording of C8's directive choice: the shorthand name when the
stripped prompt exactly equals a known literal, else the generic `prompt`
form with the text appended. -/
def shorthandDirective (clean : List Char) : List Char :=
  if clean = chars "$ " then chars "sh"
  else if clean = chars "mysql> " then chars "mysql"
  else if clean = chars ">>> " then chars "python"
  else chars "prompt " ++ clean

theorem prompt_map_lookup_eq_shorthand (clean : List Char) :
    (prompt_map.lookup clean).getD (chars "prompt " ++ clean) = shorthandDirective clean := by
  simp only [prompt_map, shorthandDirective, List.lookup]
  by_cases h1 : clean = chars "$ "
  · simp [h1]
  · rw [beq_false_of_ne h1, if_neg h1]
    by_cases h2 : clean = chars "mysql> "
    · simp [h2]
    · rw [beq_false_of_ne h2, if_neg h2]
      by_cases h3 : clean = chars ">>> "
      · simp [h3]
      · rw [beq_false_of_ne h3, if_neg h3]
        rfl

/-- Recording state falsifying C8 as stated: the child output ended with a
newline, so the current prompt line is empty while the last recorded prompt
is the dollar prompt. -/
def c8State : RecState :=
  ⟨0, [], chars "$ ", [], [chars "#> sh", chars "echo a"]⟩

/-- C8 counterexample: at instant 10 with threshold 1 the output has been
silent long enough, the escape-stripped current prompt line (empty) differs
from the last recorded prompt (the dollar prompt), yet the keystroke
records no prompt directive and the last recorded prompt is not updated —
so emission is not characterised by silence-and-difference alone. -/
theorem prompt_emission_counterexample :
    (1 : ℤ) ≤ 10 - c8State.last_output_time ∧
    stripEscapes c8State.current_prompt = [] ∧
    c8State.last_recorded_prompt = chars "$ " ∧
    (record_user_key 1 10 'p' c8State).recorded_commands = c8State.recorded_commands ∧
    (record_user_key 1 10 'p' c8State).last_recorded_prompt = c8State.last_recorded_prompt := by
  decide

/-- C8 as amended: on a user keystroke a prompt meta-directive is emitted
into the transcript exactly when the output has been silent for the
threshold AND the escape-stripped current prompt line is non-empty AND it
differs from the last recorded prompt; the emitted directive is the
shorthand name for a known literal prompt and the generic `prompt` form
otherwise, the last recorded prompt is then updated, and all of this
happens before the keystroke is folded into the upcoming command. -/
theorem prompt_directive_emission_characterized (th t : ℤ) (s : RecState) :
    ((maybe_record_prompt th t s).recorded_commands ≠ s.recorded_commands ↔
      (th ≤ t - s.last_output_time ∧ stripEscapes s.current_prompt ≠ [] ∧
       stripEscapes s.current_prompt ≠ s.last_recorded_prompt)) ∧
    (th ≤ t - s.last_output_time ∧ stripEscapes s.current_prompt ≠ [] ∧
       stripEscapes s.current_prompt ≠ s.last_recorded_prompt →
      (maybe_record_prompt th t s).recorded_commands =
        s.recorded_commands ++
          [chars "#> " ++ shorthandDirective (stripEscapes s.current_prompt)] ∧
      (maybe_record_prompt th t s).last_recorded_prompt = stripEscapes s.current_prompt) ∧
    (∀ c, record_user_key th t c s = record_enter_or_key c (maybe_record_prompt th t s)) := by
  refine ⟨?_, ?_, fun c => rfl⟩
  · constructor
    · intro hne
      by_contra hcond
      rw [maybe_record_prompt, if_neg hcond] at hne
      exact hne rfl
    · intro hcond
      rw [maybe_record_prompt, if_pos hcond]
      intro heq
      have := congrArg List.length heq
      simp at this
  · intro hcond
    rw [maybe_record_prompt, if_pos hcond]
    exact ⟨by simp [prompt_map_lookup_eq_shorthand], rfl⟩

/-- Recording state where a fresh dollar prompt has settled and nothing was
recorded yet. -/
def c8PromptState : RecState := ⟨0, chars "$ ", [], [], []⟩

/-- Closed instance of the amended C8: with a settled dollar prompt that was
never recorded, the keystroke emits the shorthand `sh` directive and
remembers the prompt. -/
theorem prompt_directive_emission_witness :
    (maybe_record_prompt 1 10 c8PromptState).recorded_commands =
      c8PromptState.recorded_commands ++
        [chars "#> " ++ shorthandDirective (stripEscapes c8PromptState.current_prompt)] ∧
    (maybe_record_prompt 1 10 c8PromptState).last_recorded_prompt =
      stripEscapes c8PromptState.current_prompt :=
  (prompt_directive_emission_characterized 1 10 c8PromptState).2.1
    ⟨by decide, by decide, by decide⟩

/-- C10: when everything received since the last newline strips to the
empty string, a keystroke records no prompt directive — even when the
output has been silent past the threshold and the (empty) stripped prompt
differs from the last recorded prompt — and keystroke handling reduces to
plain command accumulation. -/
theorem no_directive_for_empty_stripped_prompt (th t : ℤ) (s : RecState) (c : Char)
    (hempty : stripEscapes s.current_prompt = [])
    (hsilent : th ≤ t - s.last_output_time)
    (hdiff : stripEscapes s.current_prompt ≠ s.last_recorded_prompt) :
    maybe_record_prompt th t s = s ∧
    record_user_key th t c s = record_enter_or_key c s := by
  have h : maybe_record_prompt th t s = s := by
    rw [maybe_record_prompt, if_neg]
    rintro ⟨-, h2, -⟩
    exact h2 hempty
  exact ⟨h, by rw [record_user_key, h]⟩

/-- Recording state whose prompt line is a bare erase-line escape sequence:
it strips to the empty string. -/
def emptyPromptState : RecState :=
  ⟨0, [escChar, '[', 'm'], chars "$ ", [], [chars "#> sh"]⟩

/-- Closed instance of C10: a prompt line consisting only of an ANSI escape
strips to empty, so the silent, differing keystroke at instant 5 records
nothing. -/
theorem no_directive_for_empty_stripped_prompt_witness :
    maybe_record_prompt 1 5 emptyPromptState = emptyPromptState ∧
    record_user_key 1 5 'p' emptyPromptState = record_enter_or_key 'p' emptyPromptState :=
  no_directive_for_empty_stripped_prompt 1 5 emptyPromptState 'p'
    (by decide) (by decide) (by decide)

/-- A recorded session in which the user types `echo a` and `echo b`, each
ended by Enter, against a shell child: the child prints its dollar prompt,
the user types the first command after the prompt settles, the child echoes
the command and its output ending in a fresh prompt, the user types the
second command, then stops recording with Ctrl+T (byte 20). -/
def roundTripTrace : List (ℤ × RecEvent) :=
  [(0, .childData (chars "$ ")),
   (2, .userKey 'e'), (2, .userKey 'c'), (2, .userKey 'h'), (2, .userKey 'o'),
   (2, .userKey ' '), (2, .userKey 'a'), (2, .userKey '\r'),
   (3, .childData (chars "echo a\r\na\r\n$ ")),
   (10, .userKey 'e'), (10, .userKey 'c'), (10, .userKey 'h'), (10, .userKey 'o'),
   (10, .userKey ' '), (10, .userKey 'b'), (10, .userKey '\r'),
   (11, .userKey (Char.ofNat 20))]

example : (record_session 1 ⟨0, [], [], [], []⟩ roundTripTrace).1.recorded_commands =
    [chars "#> sh", chars "echo a", chars "echo b"] := by decide
example : (record_session 1 ⟨0, [], [], [], []⟩ roundTripTrace).2 = some .ctrlT := by decide

set_option maxRecDepth 4000 in
/-- C4: recording the session above produces a script which, replayed
against a fresh child whose prompts all settle (every wait succeeds),
writes exactly the bytes of `echo a` with a carriage return and then those
of `echo b` with a carriage return to the child's input, in that order, and
nothing else. -/
theorem record_replay_roundtrip_sends :
    sentBytes (process_command_file (fun _ => true)
      (finalize_recording
        (record_session 1 ⟨0, [], [], [], []⟩ roundTripTrace).1.recorded_commands)) =
      [chars "echo a" ++ ['\r'], chars "echo b" ++ ['\r']] := by decide

/-- Events of the post-script drain loop of `process_command_file`
(titplay.py lines 177 to 188): a read chunk (empty meaning end-of-file) or
a one-second `select` timeout. -/
inductive DrainEvent where
  | data : List Char → DrainEvent
  | timeout : DrainEvent

/-- The drain loop itself: echo chunks until a timeout or an end-of-file
read breaks the loop; returns the chunks echoed. -/
def drain_loop : List DrainEvent → List (List Char)
  | [] => []
  | .timeout :: _ => []
  | .data [] :: _ => []
  | .data d :: rest => d :: drain_loop rest

/-- C7 counterexample: a child that dies right after `ls` is sent.  The
wait loop never detects the end-of-file reads — each empty read re-runs the
data-handling code, resetting the silence clock and re-deriving the prompt
flag, here even after a real dollar prompt had matched — so the wait runs
to its timeout and fails; the replay loop then reports the failure and
aborts the remaining script line.  The mid-script child exit is thus
surfaced as a reported command failure, not as a graceful `Done`. -/
theorem child_eof_midscript_treated_as_failure :
    wait_for_prompt (.single shDollarPattern) 1 30 ⟨[], 0, false⟩
      [(5, some (chars "$ ")), (5, some []), (6, some []), (30, some [])] = none ∧
    run_commands (fun k => decide (k = 0)) (.patternList prompt_patterns_sh) 1
      [chars "ls", chars "pwd"] =
      (.patternList prompt_patterns_sh,
       [.report (.showCommand (chars "ls")), .sent (chars "ls" ++ ['\r']),
        .report .commandFailedToComplete]) := by decide

/-- C7 as amended: the record loop treats a zero-length read from the child
as a graceful stop — recording ends at once with the transcript intact and
proceeds to finalization — and the replayer detects end-of-file only in
the post-script drain loop, where it ends the drain quietly; during a
prompt wait an exited child is never detected as end-of-file, the empty
reads keep resetting the silence clock and the wait ends in a reported
timeout (as in the counterexample), though without raising. -/
theorem child_eof_graceful_where_detected :
    (∀ (th : ℤ) (s : RecState) (t : ℤ) (rest : List (ℤ × RecEvent)),
      record_session th s ((t, .childData []) :: rest) = (s, some .childEof)) ∧
    (∀ rest : List DrainEvent, drain_loop (.data [] :: rest) = []) ∧
    wait_for_prompt (.single shDollarPattern) 2 40 ⟨[], 0, false⟩
      [(10, some []), (41, none)] = none :=
  ⟨fun _ _ _ _ => rfl, fun _ => rfl, by decide⟩

/-- Teardown actions the two drivers can perform. -/
inductive TAction where
  | closeMaster : TAction
  | reapChild : TAction
  | terminateChild : TAction
  | restoreSigintHandler : TAction
  | restoreStdinTermios : TAction
  | writeTranscript : TAction
deriving DecidableEq, BEq

/-- Exit paths of the `try` body of `process_command_file` (titplay.py
lines 149 to 193): normal completion of loop and drain, the early return
when the initial prompt never appears (line 154), the break after a command
wait timeout (line 169) followed by the drain, and the KeyboardInterrupt
handler (lines 192 to 193). -/
inductive ReplayExit where
  | completed : ReplayExit
  | initialPromptFailed : ReplayExit
  | commandTimedOut : ReplayExit
  | interrupted : ReplayExit
deriving DecidableEq

/-- The `finally` block of `process_command_file` (titplay.py lines 194 to
200), reached on each exit path: close the master, then `waitpid` the
child.  No termination signal is sent on any path. -/
def replay_teardown : ReplayExit → List TAction
  | .completed => [.closeMaster, .reapChild]
  | .initialPromptFailed => [.closeMaster, .reapChild]
  | .commandTimedOut => [.closeMaster, .reapChild]
  | .interrupted => [.closeMaster, .reapChild]

/-- Exit paths of the record loop (titrec.py lines 85 to 198): the Ctrl+T
stop, keyboard end-of-file, child end-of-file, and any exception caught by
the `except Exception` handler. -/
inductive RecordExit where
  | ctrlTStop : RecordExit
  | stdinEofStop : RecordExit
  | childEofStop : RecordExit
  | errorRaised : RecordExit
deriving DecidableEq

/-- The `finally` block of `record_session` (titrec.py lines 199 to 212),
reached on each exit path: restore the SIGINT handler, restore the
operator's terminal settings, write the transcript, close the master, send
SIGTERM to the child, and `waitpid` it. -/
def record_teardown : RecordExit → List TAction
  | .ctrlTStop =>
    [.restoreSigintHandler, .restoreStdinTermios, .writeTranscript,
     .closeMaster, .terminateChild, .reapChild]
  | .stdinEofStop =>
    [.restoreSigintHandler, .restoreStdinTermios, .writeTranscript,
     .closeMaster, .terminateChild, .reapChild]
  | .childEofStop =>
    [.restoreSigintHandler, .restoreStdinTermios, .writeTranscript,
     .closeMaster, .terminateChild, .reapChild]
  | .errorRaised =>
    [.restoreSigintHandler, .restoreStdinTermios, .writeTranscript,
     .closeMaster, .terminateChild, .reapChild]

/-- C9 counterexample: on no replay exit path does teardown terminate the
child — the replayer only closes the master and waits for the child to
exit on its own, so "the child is terminated on every exit path" fails. -/
theorem replay_teardown_skips_terminate :
    (replay_teardown .completed).contains TAction.terminateChild = false ∧
    (replay_teardown .initialPromptFailed).contains TAction.terminateChild = false ∧
    (replay_teardown .commandTimedOut).contains TAction.terminateChild = false ∧
    (replay_teardown .interrupted).contains TAction.terminateChild = false := by decide

/-- C9 as amended: on every exit path the replayer's teardown closes the
master handle and reaps the child but sends it no termination signal, while
the recorder's teardown unconditionally restores the operator's signal
handling and terminal mode, writes the transcript, closes the master, sends
SIGTERM to the child and reaps it. -/
theorem teardown_on_every_exit_path :
    (∀ e : ReplayExit, replay_teardown e = [TAction.closeMaster, TAction.reapChild]) ∧
    (∀ e : RecordExit, record_teardown e =
      [TAction.restoreSigintHandler, TAction.restoreStdinTermios, TAction.writeTranscript,
       TAction.closeMaster, TAction.terminateChild, TAction.reapChild]) :=
  ⟨fun e => by cases e <;> rfl, fun e => by cases e <;> rfl⟩
